import Mathlib

/-!
Verification of the btg wallet core (`src/wallet/src/btg.rs`): the sighash
flag codec, the legacy signature-digest computation, the raw-transaction
builder (`prepare_rawtx` / `create_rawtx`) and the signer (`sign_rawtx`).

Bytes are modelled as `Nat`, byte strings as `List Nat`.  External
collaborators (the canonical serializer, the double-hash primitive, address
and txid parsing, ECDSA signing) are passed in as explicit function
arguments, so every theorem quantifies over them; structures that live in
crates of this repository that are not present under `src/` are modelled
from the spec and marked as such in their doc comments.
-/

deriving instance DecidableEq for Except

namespace Btg

abbrev Byte := Nat

/-- Modelled from the spec: `OutPoint` of the missing `chain` crate —
transaction id (256-bit hash, as 32 bytes) plus output index (u32). -/
structure OutPoint where
  hash : List Byte
  index : Nat
deriving DecidableEq

/-- Modelled from the spec: `TransactionInput` of the missing `chain` crate. -/
structure TransactionInput where
  previous_output : OutPoint
  script_sig : List Byte
  sequence : Nat
  script_witness : List (List Byte)
deriving DecidableEq

/-- Modelled from the spec: `TransactionOutput` of the missing `chain` crate —
value in satoshi (u64) plus a scriptPubKey byte string. -/
structure TransactionOutput where
  value : Nat
  script_pubkey : List Byte
deriving DecidableEq

/-- Modelled from the spec: `Transaction` of the missing `chain` crate. -/
structure Transaction where
  version : Int
  inputs : List TransactionInput
  outputs : List TransactionOutput
  lock_time : Nat
deriving DecidableEq

/-- Modelled from the spec: `chain::TransactionOutput::default()`, used by
`signature_hash` to blank outputs in the `Single` case; the spec describes
the blanked entries as "a zero-value, empty-script output". -/
def TransactionOutput.default : TransactionOutput :=
  { value := 0, script_pubkey := [] }

/-- Default input used to model in-range Rust indexing `tx.inputs[n]`. -/
def defInput : TransactionInput :=
  { previous_output := { hash := [], index := 0 }
    script_sig := []
    sequence := 0
    script_witness := [] }

/-- `SigHashType` from `src/wallet/src/btg.rs`. -/
inductive SigHashType where
  | All
  | None
  | Single
  | AllPlusAnyoneCanPay
  | NonePlusAnyoneCanPay
  | SinglePlusAnyoneCanPay
deriving DecidableEq

/-- `SigHashType::split_anyonecanpay_flag` from `src/wallet/src/btg.rs`. -/
def SigHashType.split_anyonecanpay_flag : SigHashType → SigHashType × Bool
  | SigHashType.All => (SigHashType.All, false)
  | SigHashType.None => (SigHashType.None, false)
  | SigHashType.Single => (SigHashType.Single, false)
  | SigHashType.AllPlusAnyoneCanPay => (SigHashType.All, true)
  | SigHashType.NonePlusAnyoneCanPay => (SigHashType.None, true)
  | SigHashType.SinglePlusAnyoneCanPay => (SigHashType.Single, true)

/-- `SigHashType::from_u32` from `src/wallet/src/btg.rs`: match on `n & 0x9f`
with a high-bit catchall. -/
def SigHashType.from_u32 (n : Nat) : SigHashType :=
  match n &&& 0x9f with
  | 0x01 => SigHashType.All
  | 0x02 => SigHashType.None
  | 0x03 => SigHashType.Single
  | 0x81 => SigHashType.AllPlusAnyoneCanPay
  | 0x82 => SigHashType.NonePlusAnyoneCanPay
  | 0x83 => SigHashType.SinglePlusAnyoneCanPay
  | x => if x &&& 0x80 = 0x80 then SigHashType.AllPlusAnyoneCanPay else SigHashType.All

/-- `SigHashType::as_u32` from `src/wallet/src/btg.rs`. -/
def SigHashType.as_u32 : SigHashType → Nat
  | SigHashType.All => 0x01
  | SigHashType.None => 0x02
  | SigHashType.Single => 0x03
  | SigHashType.AllPlusAnyoneCanPay => 0x81
  | SigHashType.NonePlusAnyoneCanPay => 0x82
  | SigHashType.SinglePlusAnyoneCanPay => 0x83

/-- The fixed digest returned in the sighash-single special case
(`H256::from([1, 0, ..., 0])` in `signature_hash`). -/
def sighash_single_bug_hash : List Byte := 1 :: List.replicate 31 0

/-- The scratch transaction (`tx_tmp`) built by `signature_hash` in
`src/wallet/src/btg.rs` (lines 109-150), for an already decoded
(base sighash, anyone-can-pay) pair.  The `anyone_can_pay` branch copies the
target input only; otherwise one input is built per original input.  The
outputs follow the base type; the ANYONECANPAY variants are unreachable
there (Rust `unreachable!()`) because `split_anyonecanpay_flag` never
returns them. -/
def signature_hash_scratch (tx : Transaction) (input_index : Nat)
    (script_pubkey : List Byte) (sighash : SigHashType) (anyone_can_pay : Bool) :
    Transaction :=
  let inputs :=
    if anyone_can_pay then
      [{ previous_output := (tx.inputs.getD input_index defInput).previous_output
         script_sig := script_pubkey
         sequence := (tx.inputs.getD input_index defInput).sequence
         script_witness := [] }]
    else
      (List.range tx.inputs.length).map fun n =>
        let input := tx.inputs.getD n defInput
        { previous_output := input.previous_output
          script_sig := if n = input_index then script_pubkey else []
          sequence :=
            if n ≠ input_index ∧
                (sighash = SigHashType.Single ∨ sighash = SigHashType.None) then 0
            else input.sequence
          script_witness := [] }
  let outputs :=
    match sighash with
    | SigHashType.All => tx.outputs
    | SigHashType.Single =>
        ((tx.outputs.take (input_index + 1)).enum).map fun p =>
          if p.1 = input_index then p.2 else TransactionOutput.default
    | SigHashType.None => []
    | _ => []
  { version := tx.version
    lock_time := tx.lock_time
    inputs := inputs
    outputs := outputs }

/-- The scratch transaction `signature_hash` builds for a raw u32 flag:
the flag is decoded by `from_u32` and `split_anyonecanpay_flag` first. -/
def signature_hash_scratch_of (tx : Transaction) (input_index : Nat)
    (script_pubkey : List Byte) (sighash_u32 : Nat) : Transaction :=
  signature_hash_scratch tx input_index script_pubkey
    ((SigHashType.from_u32 sighash_u32).split_anyonecanpay_flag).1
    ((SigHashType.from_u32 sighash_u32).split_anyonecanpay_flag).2

/-- `signature_hash` from `src/wallet/src/btg.rs` (lines 95-156).  The
external serializer (`serialization::serialize`) and double-hash
(`bitcrypto::dhash256`) are explicit arguments.  Note line 153 of the
source appends the literal bytes `[1, 0, 0, 0]` to the serialized scratch
transaction, whatever `sighash_u32` was. -/
def signature_hash (ser : Transaction → List Byte) (dhash : List Byte → List Byte)
    (tx : Transaction) (input_index : Nat) (script_pubkey : List Byte)
    (sighash_u32 : Nat) : List Byte :=
  if ((SigHashType.from_u32 sighash_u32).split_anyonecanpay_flag).1 = SigHashType.Single ∧
      tx.outputs.length ≤ input_index then
    sighash_single_bug_hash
  else
    dhash (ser (signature_hash_scratch_of tx input_index script_pubkey sighash_u32) ++
      [1, 0, 0, 0])

/-- The 4-byte little-endian encoding of a 32-bit value; this is the
encoding the spec says must be appended to the digest preimage. -/
def le_bytes4 (n : Nat) : List Byte :=
  [n % 256, n / 256 % 256, n / 256 ^ 2 % 256, n / 256 ^ 3 % 256]

/-- The error enum of `src/wallet/src/lib.rs` (the variants used by the
btg module). -/
inductive Error where
  | GreateRawTxError
  | NotFoundKeyError
  | SignRawTxError
  | NotSupportedAddressFormError
  | TxidParseError
  | AddressParseError
  | PrivKeyParseError
  | NotEnoughAmount
  | PrepareRawTxError
deriving DecidableEq

/-- `TxInputReq` from `src/wallet/src/lib.rs`. -/
structure TxInputReq where
  txid : String
  index : Nat
  address : String
  credit : Nat
deriving DecidableEq

/-- `TxOutputReq` from `src/wallet/src/lib.rs`. -/
structure TxOutputReq where
  address : String
  value : Nat
deriving DecidableEq

/-- Modelled from the spec: the address kind enum of the missing `keys`
crate (`keys::Type`). -/
inductive AddressType where
  | P2PKH
  | P2SH
deriving DecidableEq

/-- Modelled from the spec: `keys::Address` — a 160-bit hash (20 bytes)
plus its kind. -/
structure Address where
  hash : List Byte
  kind : AddressType
deriving DecidableEq

/-- Modelled from the spec: the private key of the missing `keys` crate;
`Private::sign(Hash256) -> Result<Signature, Error>` is represented by a
function returning `none` on signing failure. -/
structure Private where
  sign : List Byte → Option (List Byte)

/-- Modelled from the spec: `keys::KeyPair` — private key plus public key
bytes. -/
structure KeyPair where
  priv : Private
  pub : List Byte

/-- `Account` from `src/wallet/src/btg.rs`. -/
structure Account where
  kp : KeyPair
  address : Address

/-- Default account used to model in-range Rust indexing `accounts[i]`. -/
def defAccount : Account :=
  { kp := { priv := { sign := fun _ => none }, pub := [] }
    address := { hash := [], kind := AddressType.P2PKH } }

/-- `TransactionOutputWithAddress` from `src/wallet/src/btg.rs`. -/
structure TransactionOutputWithAddress where
  address : Address
  amount : Nat
deriving DecidableEq

/-- `TransactionOutputWithScriptData` from `src/wallet/src/btg.rs`. -/
structure TransactionOutputWithScriptData where
  script_data : List Byte
deriving DecidableEq

/-- `TxOutput` from `src/wallet/src/btg.rs`. -/
inductive TxOutput where
  | Address (out : TransactionOutputWithAddress)
  | ScriptData (out : TransactionOutputWithScriptData)
deriving DecidableEq

/-- Modelled from the spec: `script::Builder::build_p2pkh` of the missing
`script` crate — the standard pay-to-pubkey-hash scriptPubKey template. -/
def build_p2pkh (hash : List Byte) : List Byte :=
  [0x76, 0xa9, 0x14] ++ hash ++ [0x88, 0xac]

/-- Modelled from the spec: `script::Builder::build_p2sh` of the missing
`script` crate — the standard pay-to-script-hash scriptPubKey template. -/
def build_p2sh (hash : List Byte) : List Byte :=
  [0xa9, 0x14] ++ hash ++ [0x87]

/-- Modelled from the spec: a length-prefixed push of a byte string, as used
by `script::Builder::push_bytes`. -/
def push_bytes (b : List Byte) : List Byte := b.length :: b

/-- Modelled from the spec: the null-data script built by
`Builder::default().return_bytes(..)` for an "embed data" output. -/
def return_bytes (b : List Byte) : List Byte := 0x6a :: push_bytes b

/-- `chain::constants::SEQUENCE_FINAL`. -/
def SEQUENCE_FINAL : Nat := 0xffffffff

/-- The output-resolution loop of `prepare_rawtx` (`src/wallet/src/btg.rs`
lines 168-187): resolve each request in order, aborting at the first
address that fails to parse.  The external address parser is the `parse`
argument. -/
def prepare_vouts (parse : String → Option Address) :
    List TxOutputReq → Except Error (List TxOutput)
  | [] => Except.ok []
  | out :: rest =>
      match parse out.address with
      | Option.none => Except.error Error.AddressParseError
      | Option.some addr =>
          let res :=
            match addr.kind with
            | AddressType.P2PKH =>
                TxOutput.Address { address := addr, amount := out.value }
            | AddressType.P2SH =>
                TxOutput.ScriptData { script_data := [] }
          match prepare_vouts parse rest with
          | Except.error e => Except.error e
          | Except.ok vs => Except.ok (res :: vs)

/-- `prepare_rawtx` from `src/wallet/src/btg.rs` (lines 158-212).  The two
totals are folds with u64 (wrapping, modulo `2^64`) addition, exactly as
the release-mode Rust `fold(0, |acc, x| acc + x.value)` on `u64`. -/
def prepare_rawtx (parse : String → Option Address)
    (vins : List TxInputReq) (req_vouts : List TxOutputReq) :
    Except Error (List TxOutput) :=
  let total_out := req_vouts.foldl (fun acc output => (acc + output.value) % 2 ^ 64) 0
  let total_in := vins.foldl (fun acc input => (acc + input.credit) % 2 ^ 64) 0
  if total_in < total_out then
    Except.error Error.NotEnoughAmount
  else
    match prepare_vouts parse req_vouts with
    | Except.error e => Except.error e
    | Except.ok vouts =>
        if vouts.length = 0 then Except.error Error.PrepareRawTxError
        else Except.ok vouts

/-- The input-assembly loop of `create_rawtx` (`src/wallet/src/btg.rs`
lines 220-232): parse each txid in order, aborting at the first failure.
The external `H256` parser is the `parseH256` argument. -/
def create_inputs (parseH256 : String → Option (List Byte)) (default_sequence : Nat) :
    List TxInputReq → Except Error (List TransactionInput)
  | [] => Except.ok []
  | input :: rest =>
      match parseH256 input.txid with
      | Option.none => Except.error Error.TxidParseError
      | Option.some h =>
          match create_inputs parseH256 default_sequence rest with
          | Except.error e => Except.error e
          | Except.ok tl =>
              Except.ok
                ({ previous_output := { hash := h, index := input.index }
                   script_sig := []
                   sequence := default_sequence
                   script_witness := [] } :: tl)

/-- The per-output rendering of `create_rawtx` (lines 247-270). -/
def create_output : TxOutput → TransactionOutput
  | TxOutput.Address wa =>
      { value := wa.amount
        script_pubkey :=
          match wa.address.kind with
          | AddressType.P2PKH => build_p2pkh wa.address.hash
          | AddressType.P2SH => build_p2sh wa.address.hash }
  | TxOutput.ScriptData wsd =>
      { value := 0, script_pubkey := return_bytes wsd.script_data }

/-- `create_rawtx` from `src/wallet/src/btg.rs` (lines 214-282).  Note the
hard-coded `lock_time = 0`, the resulting `SEQUENCE_FINAL` default
sequence, and the resulting transaction's `version: 0` (line 277). -/
def create_rawtx (parseH256 : String → Option (List Byte))
    (vins : List TxInputReq) (vouts : List TxOutput) : Except Error Transaction :=
  let lock_time : Nat := 0
  let default_sequence := if lock_time ≠ 0 then SEQUENCE_FINAL - 1 else SEQUENCE_FINAL
  match create_inputs parseH256 default_sequence vins with
  | Except.error e => Except.error e
  | Except.ok inputs =>
      let outputs := vouts.map create_output
      if inputs.length = 0 ∨ outputs.length = 0 then
        Except.error Error.GreateRawTxError
      else
        Except.ok
          { version := 0
            inputs := inputs
            outputs := outputs
            lock_time := lock_time }

/-- The signing loop of `sign_rawtx` (`src/wallet/src/btg.rs` lines
289-308), as explicit state passing: `i` is the current index, the fuel is
the number of inputs still to process (the Rust `for i in 0..tx.inputs.len()`
bound, fixed up front), and the possibly part-way mutated transaction is
returned next to the outcome.  Each digest is computed over the current
(already partially re-scripted) transaction, exactly as in the source. -/
def sign_rawtx_go (ser : Transaction → List Byte) (dhash : List Byte → List Byte)
    (accounts : List Account) :
    Transaction → Nat → Nat → Except Error Unit × Transaction
  | tx, _, 0 => (Except.ok (), tx)
  | tx, i, fuel + 1 =>
      let account := accounts.getD i defAccount
      match account.address.kind with
      | AddressType.P2PKH =>
          let pk_script := build_p2pkh account.address.hash
          match account.kp.priv.sign (signature_hash ser dhash tx i pk_script 0x1) with
          | Option.none => (Except.error Error.SignRawTxError, tx)
          | Option.some serialized_sig =>
              let serialized_sig_vec := serialized_sig ++ [0x1]
              let script := push_bytes serialized_sig_vec ++ push_bytes account.kp.pub
              let tx2 :=
                { tx with
                  inputs :=
                    tx.inputs.set i
                      { tx.inputs.getD i defInput with script_sig := script } }
              sign_rawtx_go ser dhash accounts tx2 (i + 1) fuel
      | AddressType.P2SH => (Except.error Error.NotSupportedAddressFormError, tx)

/-- `sign_rawtx` from `src/wallet/src/btg.rs` (lines 284-311): on success
the serialized signed transaction is returned; in every case the second
component is the state the caller's `&mut Transaction` was left in. -/
def sign_rawtx (ser : Transaction → List Byte) (dhash : List Byte → List Byte)
    (tx : Transaction) (accounts : List Account) :
    Except Error (List Byte) × Transaction :=
  if tx.inputs.length = 0 ∨ tx.inputs.length ≠ accounts.length then
    (Except.error Error.GreateRawTxError, tx)
  else
    match sign_rawtx_go ser dhash accounts tx 0 tx.inputs.length with
    | (Except.ok _, tx2) => (Except.ok (ser tx2), tx2)
    | (Except.error e, tx2) => (Except.error e, tx2)

/-! Concrete instantiations of the external collaborators and concrete
transactions, used to evaluate the development on explicit inputs. -/

/-- A trivial serializer instantiation (constant empty byte string). -/
def serNil : Transaction → List Byte := fun _ => []

/-- The identity instantiation of the double-hash primitive. -/
def dhashId : List Byte → List Byte := fun b => b

/-- One-input, zero-output transaction. -/
def txC1 : Transaction :=
  { version := 1, inputs := [defInput], outputs := [], lock_time := 0 }

/-- One-input, zero-output transaction (sighash-single special case). -/
def txC2 : Transaction :=
  { version := 1, inputs := [defInput], outputs := [], lock_time := 0 }

/-- An account able to sign (its signer always returns a dummy DER blob)
whose address kind is P2PKH. -/
def acctOkC3 : Account :=
  { kp := { priv := { sign := fun _ => Option.some [] }, pub := [2] }
    address := { hash := [], kind := AddressType.P2PKH } }

/-- An account whose address kind is P2SH (rejected by the signer). -/
def acctP2shC3 : Account :=
  { kp := { priv := { sign := fun _ => Option.none }, pub := [] }
    address := { hash := [], kind := AddressType.P2SH } }

/-- Two-input transaction with empty script_sigs, to be signed. -/
def txC3 : Transaction :=
  { version := 1, inputs := [defInput, defInput], outputs := [], lock_time := 0 }

/-- One-input transaction for the pre-check witness. -/
def txC3w : Transaction :=
  { version := 1, inputs := [defInput], outputs := [], lock_time := 0 }

/-- Two inputs with distinct previous outputs, script_sigs and sequences. -/
def txC4 : Transaction :=
  { version := 3
    inputs :=
      [{ previous_output := { hash := [1], index := 4 }, script_sig := [7]
         sequence := 11, script_witness := [] },
       { previous_output := { hash := [2], index := 5 }, script_sig := [8]
         sequence := 22, script_witness := [] }]
    outputs := []
    lock_time := 9 }

/-- Two inputs and two distinct outputs, for the `Single` output rule. -/
def txC5 : Transaction :=
  { version := 3
    inputs := [defInput, defInput]
    outputs :=
      [{ value := 50, script_pubkey := [5] }, { value := 60, script_pubkey := [6] }]
    lock_time := 9 }

/-- The shared target input of the two anyone-can-pay transactions. -/
def inC6 : TransactionInput :=
  { previous_output := { hash := [9], index := 1 }, script_sig := [3]
    sequence := 77, script_witness := [] }

/-- First anyone-can-pay transaction: target input `inC6` at index 0, plus a
second input. -/
def txC6a : Transaction :=
  { version := 2
    inputs :=
      [inC6,
       { previous_output := { hash := [4], index := 0 }, script_sig := []
         sequence := 1, script_witness := [] }]
    outputs := [{ value := 10, script_pubkey := [1] }]
    lock_time := 5 }

/-- Second anyone-can-pay transaction: same version, lock_time, outputs and
target input, but a different second input and a third input. -/
def txC6b : Transaction :=
  { version := 2
    inputs :=
      [inC6,
       { previous_output := { hash := [8], index := 3 }, script_sig := [9]
         sequence := 2, script_witness := [] },
       { previous_output := { hash := [6], index := 6 }, script_sig := []
         sequence := 3, script_witness := [] }]
    outputs := [{ value := 10, script_pubkey := [1] }]
    lock_time := 5 }

/-- A txid parser instantiation that accepts everything. -/
def parseH256C7 : String → Option (List Byte) := fun _ => Option.some (List.replicate 32 0)

/-- One input request. -/
def vinsC7 : List TxInputReq := [{ txid := "00", index := 0, address := "", credit := 0 }]

/-- One resolved data output. -/
def voutsC7 : List TxOutput := [TxOutput.ScriptData { script_data := [] }]

/-- The transaction `create_rawtx` builds from `vinsC7` and `voutsC7`. -/
def txC7 : Transaction :=
  { version := 0
    inputs :=
      [{ previous_output := { hash := List.replicate 32 0, index := 0 }
         script_sig := [], sequence := SEQUENCE_FINAL, script_witness := [] }]
    outputs := [{ value := 0, script_pubkey := return_bytes [] }]
    lock_time := 0 }

/-- An address parser instantiation that rejects everything. -/
def parseNoneAddr : String → Option Address := fun _ => Option.none

/-- An address parser instantiation that resolves everything to one P2PKH
address. -/
def parseP2pkhAddr : String → Option Address :=
  fun _ => Option.some { hash := [], kind := AddressType.P2PKH }

/-- Input requests whose u64 credit total wraps to zero. -/
def vinsC9 : List TxInputReq :=
  [{ txid := "", index := 0, address := "", credit := 2 ^ 63 },
   { txid := "", index := 0, address := "", credit := 2 ^ 63 }]

/-- A modest output request. -/
def voutsC9 : List TxOutputReq := [{ address := "", value := 5 }]

/-! Helper lemmas. -/

/-- Masking with `0x9f` is idempotent. -/
theorem and_0x9f_idem (n : Nat) : (n &&& 0x9f) &&& 0x9f = n &&& 0x9f := by
  rw [Nat.and_assoc, Nat.and_self]

/-- `from_u32` only depends on the masked flag. -/
theorem from_u32_mask (n : Nat) :
    SigHashType.from_u32 n = SigHashType.from_u32 (n &&& 0x9f) := by
  unfold SigHashType.from_u32
  rw [and_0x9f_idem]

set_option maxRecDepth 8192 in
/-- Exhaustive check of the fallback decoding on already masked values:
every `m < 160` is either not of the masked shape, or one of the six
recognized flags, or decodes to `All` with the high bit as anyone-can-pay. -/
theorem from_u32_fallback_small :
    ∀ m, m < 160 →
      m &&& 0x9f ≠ m ∨ m = 0x01 ∨ m = 0x02 ∨ m = 0x03 ∨ m = 0x81 ∨ m = 0x82 ∨
      m = 0x83 ∨
      (SigHashType.from_u32 m).split_anyonecanpay_flag =
        (SigHashType.All, m &&& 0x80 == 0x80) := by
  decide

/-- The output-resolution loop can fail only with `AddressParseError`; in
particular it never produces `NotEnoughAmount`. -/
theorem prepare_vouts_never_notEnough (parse : String → Option Address)
    (l : List TxOutputReq) :
    prepare_vouts parse l ≠ Except.error Error.NotEnoughAmount := by
  induction l with
  | nil => intro h; exact Except.noConfusion h
  | cons out rest ih =>
      intro h
      unfold prepare_vouts at h
      cases hp : parse out.address with
      | none =>
          rw [hp] at h
          injection h with h2
          exact Error.noConfusion h2
      | some addr =>
          rw [hp] at h
          cases hr : prepare_vouts parse rest with
          | error e =>
              rw [hr] at h
              injection h with h2
              exact ih (hr.trans (by rw [h2]))
          | ok vs =>
              rw [hr] at h
              exact Except.noConfusion h

/-- Pointwise description of the scratch inputs when anyone-can-pay is
false: one input per original input, previous output copied, scriptSig
replaced at the target index and emptied elsewhere, sequence zeroed away
from the target when the base type is `Single` or `None`. -/
theorem scratch_inputs_spec (tx : Transaction) (i : Nat) (script : List Byte)
    (base : SigHashType) :
    (signature_hash_scratch tx i script base false).inputs.length =
      tx.inputs.length ∧
    ∀ n, n < tx.inputs.length →
      (signature_hash_scratch tx i script base false).inputs.getD n defInput =
        { previous_output := (tx.inputs.getD n defInput).previous_output
          script_sig := if n = i then script else []
          sequence :=
            if n ≠ i ∧ (base = SigHashType.Single ∨ base = SigHashType.None) then 0
            else (tx.inputs.getD n defInput).sequence
          script_witness := [] } := by
  have hinp : (signature_hash_scratch tx i script base false).inputs =
      (List.range tx.inputs.length).map fun n =>
        { previous_output := (tx.inputs.getD n defInput).previous_output
          script_sig := if n = i then script else []
          sequence :=
            if n ≠ i ∧ (base = SigHashType.Single ∨ base = SigHashType.None) then 0
            else (tx.inputs.getD n defInput).sequence
          script_witness := [] } := rfl
  constructor
  · rw [hinp, List.length_map, List.length_range]
  · intro n hn
    rw [hinp, List.getD_eq_getElem?_getD, List.getElem?_map, List.getElem?_range hn]
    rfl

/-- Pointwise description of the scratch outputs when the base type is
`Single` and the target index is covered: the prefix of length `i + 1`,
with every position other than `i` blanked. -/
theorem scratch_outputs_single_spec (tx : Transaction) (i : Nat)
    (script : List Byte) (acp : Bool) (hout : i < tx.outputs.length) :
    (signature_hash_scratch tx i script SigHashType.Single acp).outputs.length =
      i + 1 ∧
    ∀ n, n < i + 1 →
      (signature_hash_scratch tx i script SigHashType.Single acp).outputs.getD n
          TransactionOutput.default =
        (if n = i then tx.outputs.getD n TransactionOutput.default
         else TransactionOutput.default) := by
  have ho : (signature_hash_scratch tx i script SigHashType.Single acp).outputs =
      ((tx.outputs.take (i + 1)).enum).map fun p =>
        if p.1 = i then p.2 else TransactionOutput.default := rfl
  constructor
  · rw [ho, List.length_map, List.enum_length, List.length_take]
    omega
  · intro n hn
    have hnl : n < tx.outputs.length := lt_of_le_of_lt (Nat.lt_succ_iff.mp hn) hout
    rw [ho, List.getD_eq_getElem?_getD, List.getElem?_map, List.getElem?_enum,
      List.getElem?_take, if_pos hn, List.getElem?_eq_getElem hnl]
    by_cases hni : n = i
    · subst hni
      show (if n = n then tx.outputs[n] else TransactionOutput.default) =
        (if n = n then tx.outputs.getD n TransactionOutput.default
         else TransactionOutput.default)
      rw [if_pos rfl, if_pos rfl, List.getD_eq_getElem?_getD,
        List.getElem?_eq_getElem hnl]
      rfl
    · show (if n = i then tx.outputs[n] else TransactionOutput.default) =
        (if n = i then tx.outputs.getD n TransactionOutput.default
         else TransactionOutput.default)
      rw [if_neg hni, if_neg hni]

/-! Claim theorems. -/

/-- C2: for every transaction, valid input index `i`, script and flag whose
decoded base type is `Single`, if `i ≥ tx.outputs.length` then
`signature_hash` returns exactly the 32-byte digest `0x01` followed by 31
zero bytes, whatever the rest of the transaction, the script, the
anyone-can-pay bit, and the (external) serializer and hash are. -/
theorem C2_sighash_single_bug (ser : Transaction → List Byte)
    (dhash : List Byte → List Byte) (tx : Transaction) (i : Nat)
    (script : List Byte) (flag : Nat)
    (hi : i < tx.inputs.length)
    (hsingle : ((SigHashType.from_u32 flag).split_anyonecanpay_flag).1 =
      SigHashType.Single)
    (hout : tx.outputs.length ≤ i) :
    signature_hash ser dhash tx i script flag = 1 :: List.replicate 31 0 := by
  unfold signature_hash
  rw [if_pos ⟨hsingle, hout⟩]
  rfl

/-- C2 witness: concrete instance at flag `0x83` (`Single|AnyoneCanPay`),
one input and no outputs. -/
theorem C2_sighash_single_bug_witness :
    (0 < txC2.inputs.length ∧
      ((SigHashType.from_u32 0x83).split_anyonecanpay_flag).1 = SigHashType.Single ∧
      txC2.outputs.length ≤ 0) ∧
    signature_hash serNil dhashId txC2 0 [] 0x83 = 1 :: List.replicate 31 0 :=
  ⟨⟨by decide, by decide, by decide⟩,
    C2_sighash_single_bug serNil dhashId txC2 0 [] 0x83 (by decide) (by decide)
      (by decide)⟩

/-- C8: every u32 flag whose masked value `n &&& 0x9f` matches none of the
six recognized combinations decodes to base type `All`, with the
anyone-can-pay boolean given by the high bit `0x80` of the masked value. -/
theorem C8_from_u32_fallback (n : Nat) (hn : n < 2 ^ 32)
    (h1 : n &&& 0x9f ≠ 0x01) (h2 : n &&& 0x9f ≠ 0x02) (h3 : n &&& 0x9f ≠ 0x03)
    (h4 : n &&& 0x9f ≠ 0x81) (h5 : n &&& 0x9f ≠ 0x82) (h6 : n &&& 0x9f ≠ 0x83) :
    (SigHashType.from_u32 n).split_anyonecanpay_flag =
      (SigHashType.All, (n &&& 0x9f) &&& 0x80 == 0x80) := by
  rw [from_u32_mask]
  rcases from_u32_fallback_small (n &&& 0x9f)
      (Nat.lt_succ_of_le Nat.and_le_right) with
    h | h | h | h | h | h | h | h
  · exact absurd (and_0x9f_idem n) h
  · exact absurd h h1
  · exact absurd h h2
  · exact absurd h h3
  · exact absurd h h4
  · exact absurd h h5
  · exact absurd h h6
  · exact h

/-- C8 witness: concrete instance at flag `0x85` (unrecognized, high bit
set), decoding to the anyone-can-pay variant of `All`. -/
theorem C8_from_u32_fallback_witness :
    ((0x85 : Nat) < 2 ^ 32 ∧
      (0x85 : Nat) &&& 0x9f ≠ 0x01 ∧ (0x85 : Nat) &&& 0x9f ≠ 0x02 ∧
      (0x85 : Nat) &&& 0x9f ≠ 0x03 ∧ (0x85 : Nat) &&& 0x9f ≠ 0x81 ∧
      (0x85 : Nat) &&& 0x9f ≠ 0x82 ∧ (0x85 : Nat) &&& 0x9f ≠ 0x83) ∧
    (SigHashType.from_u32 0x85).split_anyonecanpay_flag = (SigHashType.All, true) :=
  ⟨⟨by decide, by decide, by decide, by decide, by decide, by decide, by decide⟩,
    C8_from_u32_fallback 0x85 (by decide) (by decide) (by decide) (by decide)
      (by decide) (by decide) (by decide)⟩

/-- C4: when the decoded anyone-can-pay bit is false (and outside the
sighash-single special case), the scratch transaction used by
`signature_hash` has one input per original input in the same order, each
copying the original previous output; the target input's scriptSig is the
spent scriptPubKey and every other scriptSig is empty; a non-target
sequence is zero when the base type is `Single` or `None` and the original
sequence otherwise; the target sequence is always the original. -/
theorem C4_scratch_inputs (tx : Transaction) (i : Nat) (script : List Byte)
    (flag : Nat) (hi : i < tx.inputs.length)
    (hacp : ((SigHashType.from_u32 flag).split_anyonecanpay_flag).2 = false)
    (hnb : ¬(((SigHashType.from_u32 flag).split_anyonecanpay_flag).1 =
        SigHashType.Single ∧ tx.outputs.length ≤ i)) :
    (signature_hash_scratch_of tx i script flag).inputs.length = tx.inputs.length ∧
    ∀ n, n < tx.inputs.length →
      ((signature_hash_scratch_of tx i script flag).inputs.getD n
          defInput).previous_output =
        (tx.inputs.getD n defInput).previous_output ∧
      ((signature_hash_scratch_of tx i script flag).inputs.getD n
          defInput).script_sig =
        (if n = i then script else []) ∧
      ((signature_hash_scratch_of tx i script flag).inputs.getD n
          defInput).sequence =
        (if n ≠ i ∧
            (((SigHashType.from_u32 flag).split_anyonecanpay_flag).1 =
                SigHashType.Single ∨
              ((SigHashType.from_u32 flag).split_anyonecanpay_flag).1 =
                SigHashType.None)
          then 0
          else (tx.inputs.getD n defInput).sequence) ∧
      (n = i →
        ((signature_hash_scratch_of tx i script flag).inputs.getD n
            defInput).sequence =
          (tx.inputs.getD n defInput).sequence) := by
  have he : signature_hash_scratch_of tx i script flag =
      signature_hash_scratch tx i script
        ((SigHashType.from_u32 flag).split_anyonecanpay_flag).1 false := by
    unfold signature_hash_scratch_of
    rw [hacp]
  obtain ⟨hlen, hpt⟩ :=
    scratch_inputs_spec tx i script
      ((SigHashType.from_u32 flag).split_anyonecanpay_flag).1
  refine ⟨by rw [he]; exact hlen, ?_⟩
  intro n hn
  have h2 := hpt n hn
  rw [he, h2]
  exact ⟨rfl, rfl, rfl, fun hni => by
    subst hni
    exact if_neg fun hc => hc.1 rfl⟩

/-- C4 witness: concrete instance with two inputs, target index 0 and flag
`0x02` (`None`, anyone-can-pay clear). -/
theorem C4_scratch_inputs_witness :
    (0 < txC4.inputs.length ∧
      ((SigHashType.from_u32 0x02).split_anyonecanpay_flag).2 = false ∧
      ¬(((SigHashType.from_u32 0x02).split_anyonecanpay_flag).1 =
          SigHashType.Single ∧ txC4.outputs.length ≤ 0)) ∧
    ((signature_hash_scratch_of txC4 0 [9] 0x02).inputs.length =
        txC4.inputs.length ∧
      ∀ n, n < txC4.inputs.length →
        ((signature_hash_scratch_of txC4 0 [9] 0x02).inputs.getD n
            defInput).previous_output =
          (txC4.inputs.getD n defInput).previous_output ∧
        ((signature_hash_scratch_of txC4 0 [9] 0x02).inputs.getD n
            defInput).script_sig =
          (if n = 0 then [9] else []) ∧
        ((signature_hash_scratch_of txC4 0 [9] 0x02).inputs.getD n
            defInput).sequence =
          (if n ≠ 0 ∧
              (((SigHashType.from_u32 0x02).split_anyonecanpay_flag).1 =
                  SigHashType.Single ∨
                ((SigHashType.from_u32 0x02).split_anyonecanpay_flag).1 =
                  SigHashType.None)
            then 0
            else (txC4.inputs.getD n defInput).sequence) ∧
        (n = 0 →
          ((signature_hash_scratch_of txC4 0 [9] 0x02).inputs.getD n
              defInput).sequence =
            (txC4.inputs.getD n defInput).sequence)) :=
  ⟨⟨by decide, by decide, by decide⟩,
    C4_scratch_inputs txC4 0 [9] 0x02 (by decide) (by decide) (by decide)⟩

/-- C5: when the decoded base type is `Single` and `i < tx.outputs.length`,
the scratch transaction's outputs are exactly the first `i + 1` original
outputs, the one at index `i` kept, every other one in the prefix replaced
by a zero-value, empty-script output. -/
theorem C5_scratch_outputs_single (tx : Transaction) (i : Nat)
    (script : List Byte) (flag : Nat)
    (hi : i < tx.inputs.length)
    (hsingle : ((SigHashType.from_u32 flag).split_anyonecanpay_flag).1 =
      SigHashType.Single)
    (hout : i < tx.outputs.length) :
    (signature_hash_scratch_of tx i script flag).outputs.length = i + 1 ∧
    (signature_hash_scratch_of tx i script flag).outputs.getD i
        TransactionOutput.default =
      tx.outputs.getD i TransactionOutput.default ∧
    ∀ n, n < i + 1 → n ≠ i →
      (signature_hash_scratch_of tx i script flag).outputs.getD n
          TransactionOutput.default =
        { value := 0, script_pubkey := [] } := by
  have he : signature_hash_scratch_of tx i script flag =
      signature_hash_scratch tx i script SigHashType.Single
        ((SigHashType.from_u32 flag).split_anyonecanpay_flag).2 := by
    unfold signature_hash_scratch_of
    rw [hsingle]
  obtain ⟨hlen, hpt⟩ :=
    scratch_outputs_single_spec tx i script
      ((SigHashType.from_u32 flag).split_anyonecanpay_flag).2 hout
  refine ⟨by rw [he]; exact hlen, ?_, ?_⟩
  · rw [he, hpt i (Nat.lt_succ_self i), if_pos rfl]
  · intro n hn hni
    rw [he, hpt n hn, if_neg hni]
    rfl

/-- C5 witness: concrete instance with two outputs, target index 1 and flag
`0x03` (`Single`). -/
theorem C5_scratch_outputs_single_witness :
    (1 < txC5.inputs.length ∧
      ((SigHashType.from_u32 0x03).split_anyonecanpay_flag).1 =
        SigHashType.Single ∧
      1 < txC5.outputs.length) ∧
    ((signature_hash_scratch_of txC5 1 [9] 0x03).outputs.length = 1 + 1 ∧
      (signature_hash_scratch_of txC5 1 [9] 0x03).outputs.getD 1
          TransactionOutput.default =
        txC5.outputs.getD 1 TransactionOutput.default ∧
      ∀ n, n < 1 + 1 → n ≠ 1 →
        (signature_hash_scratch_of txC5 1 [9] 0x03).outputs.getD n
            TransactionOutput.default =
          { value := 0, script_pubkey := [] }) :=
  ⟨⟨by decide, by decide, by decide⟩,
    C5_scratch_outputs_single txC5 1 [9] 0x03 (by decide) (by decide) (by decide)⟩

/-- C6: for flag `0x81` (`All|AnyoneCanPay`), the digest at a target index
depends only on the transaction's version, lock_time, outputs and the
target input: two transactions agreeing on those (the other inputs may
differ in number and content) yield the same digest, for every serializer
and hash instantiation. -/
theorem C6_anyonecanpay_isolation (ser : Transaction → List Byte)
    (dhash : List Byte → List Byte) (tx1 tx2 : Transaction) (i : Nat)
    (script : List Byte)
    (h1 : i < tx1.inputs.length) (h2 : i < tx2.inputs.length)
    (hv : tx1.version = tx2.version) (hl : tx1.lock_time = tx2.lock_time)
    (ho : tx1.outputs = tx2.outputs)
    (hin : tx1.inputs.getD i defInput = tx2.inputs.getD i defInput) :
    signature_hash ser dhash tx1 i script 0x81 =
      signature_hash ser dhash tx2 i script 0x81 := by
  have hs : signature_hash_scratch_of tx1 i script 0x81 =
      signature_hash_scratch_of tx2 i script 0x81 := by
    show signature_hash_scratch tx1 i script SigHashType.All true =
      signature_hash_scratch tx2 i script SigHashType.All true
    unfold signature_hash_scratch
    rw [hv, hl, ho, hin]
    rfl
  show dhash (ser (signature_hash_scratch_of tx1 i script 0x81) ++ [1, 0, 0, 0]) =
    dhash (ser (signature_hash_scratch_of tx2 i script 0x81) ++ [1, 0, 0, 0])
  rw [hs]

/-- C6 witness: two concrete transactions agreeing on everything but the
non-target inputs (the second has a different second input and one more
input) get the same digest at index 0. -/
theorem C6_anyonecanpay_isolation_witness :
    (0 < txC6a.inputs.length ∧ 0 < txC6b.inputs.length ∧
      txC6a.version = txC6b.version ∧ txC6a.lock_time = txC6b.lock_time ∧
      txC6a.outputs = txC6b.outputs ∧
      txC6a.inputs.getD 0 defInput = txC6b.inputs.getD 0 defInput) ∧
    signature_hash serNil dhashId txC6a 0 [7] 0x81 =
      signature_hash serNil dhashId txC6b 0 [7] 0x81 :=
  ⟨⟨by decide, by decide, by decide, by decide, by decide, by decide⟩,
    C6_anyonecanpay_isolation serNil dhashId txC6a txC6b 0 [7] (by decide)
      (by decide) (by decide) (by decide) (by decide) (by decide)⟩

/-- C1: at the concrete one-input transaction `txC1`, index 0 and flag
`0x82` (`None|AnyoneCanPay`, outside the sighash-single case), the digest
preimage built by `signature_hash` ends in the fixed bytes `[1, 0, 0, 0]`
(the little-endian `SIGHASH_ALL` constant hard-coded at line 153 of
`btg.rs`), not in the 4-byte little-endian encoding of the flag that was
passed in, for every serializer instantiation; so the claimed equality with
`dhash (serialized scratch ++ le_bytes4 flag)` fails. -/
theorem C1_appends_fixed_sighash_all (ser : Transaction → List Byte) :
    signature_hash ser dhashId txC1 0 [] 0x82 =
      ser (signature_hash_scratch_of txC1 0 [] 0x82) ++ [1, 0, 0, 0] ∧
    signature_hash ser dhashId txC1 0 [] 0x82 ≠
      ser (signature_hash_scratch_of txC1 0 [] 0x82) ++ le_bytes4 0x82 := by
  constructor
  · rfl
  · intro h
    have h2 : ser (signature_hash_scratch_of txC1 0 [] 0x82) ++ [1, 0, 0, 0] =
        ser (signature_hash_scratch_of txC1 0 [] 0x82) ++ le_bytes4 0x82 := h
    have h3 := List.append_cancel_left h2
    exact absurd h3 (by decide)

/-- C9 (amended): `prepare_rawtx` returns `NotEnoughAmount` exactly when the
wrapping (modulo `2^64`) input-credit total is smaller than the wrapping
output-value total; with the totals read as unbounded integers the claim
fails, because either fold can wrap. -/
theorem C9_not_enough_amount_iff (parse : String → Option Address)
    (vins : List TxInputReq) (req_vouts : List TxOutputReq) :
    prepare_rawtx parse vins req_vouts = Except.error Error.NotEnoughAmount ↔
      vins.foldl (fun acc input => (acc + input.credit) % 2 ^ 64) 0 <
        req_vouts.foldl (fun acc output => (acc + output.value) % 2 ^ 64) 0 := by
  simp only [prepare_rawtx]
  split
  · next hlt => exact ⟨fun _ => hlt, fun _ => rfl⟩
  · next hge =>
      constructor
      · intro h
        exfalso
        cases hr : prepare_vouts parse req_vouts with
        | error e =>
            rw [hr] at h
            injection h with h2
            exact prepare_vouts_never_notEnough parse req_vouts (hr.trans (by rw [h2]))
        | ok vs =>
            simp only [hr] at h
            by_cases hv : vs.length = 0
            · rw [if_pos hv] at h
              injection h with h2
              exact absurd h2 (by decide)
            · rw [if_neg hv] at h
              exact Except.noConfusion h
      · intro hlt; exact absurd hlt hge

/-- C9 counterexample: with credits `2^63 + 2^63` the true input total
(`2^64`) covers the requested output total (`5`), yet `prepare_rawtx`
returns `NotEnoughAmount`, because the u64 credit fold wraps to zero. -/
theorem C9_counterexample :
    (voutsC9.map TxOutputReq.value).sum ≤ (vinsC9.map TxInputReq.credit).sum ∧
    prepare_rawtx parseNoneAddr vinsC9 voutsC9 =
      Except.error Error.NotEnoughAmount := by
  constructor
  · decide
  · rfl

/-- C3 (amended): `sign_rawtx` leaves the transaction unmodified when it
fails its pre-signing checks — an empty input list or an input/account
length mismatch, both reported as `GreateRawTxError`; a failure raised
while signing input `i`, by contrast, can leave inputs before `i` with
their newly written script_sigs (see the counterexample). -/
theorem C3_prechecks_leave_tx_unmodified (ser : Transaction → List Byte)
    (dhash : List Byte → List Byte) (tx : Transaction) (accounts : List Account)
    (h : tx.inputs.length = 0 ∨ tx.inputs.length ≠ accounts.length) :
    sign_rawtx ser dhash tx accounts =
      (Except.error Error.GreateRawTxError, tx) := by
  unfold sign_rawtx
  rw [if_pos h]

/-- C3 witness: one input but no accounts — the pre-check fires and the
transaction is returned untouched. -/
theorem C3_prechecks_leave_tx_unmodified_witness :
    (txC3w.inputs.length = 0 ∨ txC3w.inputs.length ≠ ([] : List Account).length) ∧
    sign_rawtx serNil dhashId txC3w [] =
      (Except.error Error.GreateRawTxError, txC3w) :=
  ⟨Or.inr (by decide),
    C3_prechecks_leave_tx_unmodified serNil dhashId txC3w []
      (Or.inr (by decide))⟩

/-- C3 counterexample: signing `txC3` with a P2PKH account followed by a
P2SH account fails with `NotSupportedAddressFormError` at index 1, but
input 0's script_sig has already been overwritten — the transaction is not
left unmodified. -/
theorem C3_counterexample :
    (sign_rawtx serNil dhashId txC3 [acctOkC3, acctP2shC3]).1 =
      Except.error Error.NotSupportedAddressFormError ∧
    ((sign_rawtx serNil dhashId txC3 [acctOkC3, acctP2shC3]).2.inputs.getD 0
        defInput).script_sig ≠
      (txC3.inputs.getD 0 defInput).script_sig := by
  constructor
  · rfl
  · decide

/-- C7 (amended): every transaction returned by `create_rawtx` has
`version = 0` (line 277 of `btg.rs`), not `version = 2`. -/
theorem C7_version_zero (parseH256 : String → Option (List Byte))
    (vins : List TxInputReq) (vouts : List TxOutput) (tx : Transaction)
    (h : create_rawtx parseH256 vins vouts = Except.ok tx) :
    tx.version = 0 := by
  simp only [create_rawtx] at h
  cases hc : create_inputs parseH256
      (if (0 : Nat) ≠ 0 then SEQUENCE_FINAL - 1 else SEQUENCE_FINAL) vins with
  | error e =>
      simp only [hc] at h
      exact Except.noConfusion h
  | ok inputs =>
      simp only [hc] at h
      by_cases hz : inputs.length = 0 ∨ (vouts.map create_output).length = 0
      · rw [if_pos hz] at h
        exact Except.noConfusion h
      · rw [if_neg hz] at h
        injection h with h2
        rw [← h2]

/-- C7 witness: a concrete build returning `txC7`, whose version is 0. -/
theorem C7_version_zero_witness :
    create_rawtx parseH256C7 vinsC7 voutsC7 = Except.ok txC7 ∧
    txC7.version = 0 :=
  ⟨rfl, C7_version_zero parseH256C7 vinsC7 voutsC7 txC7 rfl⟩

/-- C7 counterexample: the transaction assembled from `vinsC7`/`voutsC7`
has version 0, so the claim that `create_rawtx` yields `version = 2` is
false at this input. -/
theorem C7_counterexample :
    (create_rawtx parseH256C7 vinsC7 voutsC7).toOption.map Transaction.version =
      Option.some 0 ∧
    (create_rawtx parseH256C7 vinsC7 voutsC7).toOption.map Transaction.version ≠
      Option.some 2 := by
  constructor
  · rfl
  · decide

/-- C10: both totals of `prepare_rawtx` are u64 (modulo `2^64`) folds, so
there are request lists whose true output total strictly exceeds the true
input total for which `prepare_rawtx` does not return `NotEnoughAmount`. -/
theorem C10_overflow_wraps :
    ∃ (vins : List TxInputReq) (req_vouts : List TxOutputReq),
      (vins.map TxInputReq.credit).sum < (req_vouts.map TxOutputReq.value).sum ∧
      prepare_rawtx parseP2pkhAddr vins req_vouts ≠
        Except.error Error.NotEnoughAmount := by
  refine ⟨[{ txid := "", index := 0, address := "", credit := 5 }],
    [{ address := "", value := 2 ^ 63 }, { address := "", value := 2 ^ 63 }],
    by decide, ?_⟩
  intro h
  rw [show prepare_rawtx parseP2pkhAddr
      [{ txid := "", index := 0, address := "", credit := 5 }]
      [{ address := "", value := 2 ^ 63 }, { address := "", value := 2 ^ 63 }] =
      Except.ok
        [TxOutput.Address { address := { hash := [], kind := AddressType.P2PKH }
                            amount := 2 ^ 63 },
         TxOutput.Address { address := { hash := [], kind := AddressType.P2PKH }
                            amount := 2 ^ 63 }] from rfl] at h
  exact Except.noConfusion h

end Btg
